import Mathlib

/-
Shallow embedding of src/PromptExperiment.py (class PromptExperiment) and
proofs of the specified properties of its condition-generation policies,
sampling, enumeration, flattening and construction-time validation.

Modelling conventions:
* Python dicts are insertion-ordered association lists.
* A format template is a list of literal and slot parts; rendering a slot
  with no bound value fails (Python str.format raises KeyError there).
* The Python random module's Mersenne Twister is modelled as a deterministic
  pseudo-random state machine (a linear congruential generator); every
  property proved below depends only on determinism of the stream, the
  order in which it is consumed, and reduction of a raw draw modulo the
  candidate count (random.choice picks seq[randbelow(len(seq))]).
* The module-level random state is threaded explicitly; random.seed(seed)
  replaces it by a function of the seed alone.
* The injected unit of work (simulate_response in the source, the produce
  collaborator of the spec) is a function argument; run_experiments also
  returns the trace of (prompt, hyperparameters) arguments it was called
  with, in call order, so call-count claims are statable.
-/

namespace OOD

/-- A part of a Python format template: literal text or a named slot. -/
inductive TplPart where
  | lit (s : String)
  | slot (name : String)
deriving DecidableEq, Repr

/-- A template is a sequence of parts (model of a Python format string). -/
abbrev Template := List TplPart

/-- A binding maps parameter names to chosen values, in insertion order. -/
abbrev Binding := List (String × String)

/-- A parameter space maps parameter names to candidate-value lists. -/
abbrev ParameterSpace := List (String × List String)

/-- A flattened experiment record (a Python dict, insertion ordered). -/
abbrev Record := List (String × String)

/-- Slot names referenced by a template, in order of appearance. -/
def tplSlots : Template → List String
  | [] => []
  | TplPart.lit _ :: rest => tplSlots rest
  | TplPart.slot n :: rest => n :: tplSlots rest

/-- Look up a key in an insertion-ordered dict. -/
def lookupBinding (b : Binding) (k : String) : Option String :=
  (b.find? (fun p => p.1 == k)).map Prod.snd

/-- Render a template against a binding; fails with the name of the first
slot that has no bound value (str.format raises KeyError on that slot). -/
def renderTpl : Template → Binding → Except String String
  | [], _ => Except.ok ""
  | TplPart.lit s :: rest, b => (renderTpl rest b).map (fun r => s ++ r)
  | TplPart.slot n :: rest, b =>
    match lookupBinding b n with
    | none => Except.error n
    | some v => (renderTpl rest b).map (fun r => v ++ r)

/-- Total rendering function describing the success case of renderTpl. -/
def renderTotal : Template → Binding → String
  | [], _ => ""
  | TplPart.lit s :: rest, b => s ++ renderTotal rest b
  | TplPart.slot n :: rest, b => ((lookupBinding b n).getD "") ++ renderTotal rest b

/-- One step of the modelled random stream (a linear congruential generator
standing in for the Mersenne Twister; only determinism is relied upon). -/
def rngNext (s : Nat) : Nat := (s * 1103515245 + 12345) % 2 ^ 31

/-- Model of random.seed: the global stream state becomes a function of the
seed alone; whatever state was current before seeding is discarded. -/
def seedState (seed : Int) : Nat := rngNext ((seed.emod (2 ^ 31)).toNat)

/-- Reduction of one raw stream draw to an index below the candidate count
(model of the randbelow step inside random.choice). -/
def pickIndex (u n : Nat) : Nat := u % n

/-- Model of random.choice: consumes one stream draw and picks one element
of the list by its index; fails on an empty list (Python raises IndexError). -/
def randChoice (st : Nat) (values : List String) : Option (String × Nat) :=
  if h : 0 < values.length then
    some (values.get ⟨pickIndex (rngNext st) values.length, Nat.mod_lt _ h⟩, rngNext st)
  else none

/-- Model of PromptExperiment.random_params: one choice per parameter,
iterating the parameters in declared order and consuming the stream in
exactly that order. -/
def random_params : Nat → ParameterSpace → Option (Binding × Nat)
  | st, [] => some ([], st)
  | st, (name, values) :: rest =>
    match randChoice st values with
    | none => none
    | some (v, st1) =>
      match random_params st1 rest with
      | none => none
      | some (b, st2) => some ((name, v) :: b, st2)

/-- Repeated random_params: the comprehension drawing a fixed number of
bindings, outer loop over draws, inner loop over parameters. -/
def randomParamsN (space : ParameterSpace) : Nat → Nat → Option (List Binding × Nat)
  | 0, st => some ([], st)
  | Nat.succ n, st =>
    match random_params st space with
    | none => none
    | some (b, st1) =>
      match randomParamsN space n st1 with
      | none => none
      | some (bs, st2) => some (b :: bs, st2)

/-- Model of itertools.product over a list of candidate lists: the first
list varies slowest and the last list varies fastest. -/
def listProduct : List (List String) → List (List String)
  | [] => [[]]
  | vs :: rest => vs.flatMap (fun v => (listProduct rest).map (fun tail => v :: tail))

/-- Model of PromptExperiment.factorial_params: dict(zip(keys, values)) for
every values tuple of the cross product of the candidate lists. -/
def factorial_params (space : ParameterSpace) : List Binding :=
  (listProduct (space.map Prod.snd)).map (fun values => List.zip (space.map Prod.fst) values)

/-- Cardinality of a parameter space: product of candidate-list lengths. -/
def cardinality (space : ParameterSpace) : Nat :=
  (space.map (fun p => p.2.length)).prod

/-- Decides whether a binding selects, for each declared parameter in
declared order, one value from that parameter's candidate list. -/
def isSelection : Binding → ParameterSpace → Bool
  | [], [] => true
  | (k, v) :: b, (n, vs) :: s => k == n && vs.contains v && isSelection b s
  | _, _ => false

/-- Python dict assignment d[k] = v on an insertion-ordered dict: replaces
the value in place when the key is present, appends otherwise. -/
def dictInsert (d : Record) (k v : String) : Record :=
  if d.any (fun p => p.1 == k) then
    d.map (fun p => if p.1 == k then (k, v) else p)
  else d ++ [(k, v)]

/-- Python dict.update with an insertion-ordered sequence of pairs. -/
def dictUpdate (d : Record) : List (String × String) → Record
  | [] => d
  | (k, v) :: rest => dictUpdate (dictInsert d k v) rest

/-- Model of PromptExperiment.flatten_results. -/
def flatten_results (prompt : String) (prompt_params : Binding) (hyperparams : Binding) (response : String) : Record :=
  dictUpdate
    (dictUpdate [("prompt", prompt), ("output", response)]
      (prompt_params.map (fun p => ("param_" ++ p.1, p.2))))
    (hyperparams.map (fun p => ("hyper_" ++ p.1, p.2)))

/-- Keys of a record, in insertion order. -/
def recordKeys (r : Record) : List String := r.map Prod.fst

/-- Canonical key list shared by every record over the given spaces. -/
def canonKeys (ps hs : ParameterSpace) : List String :=
  "prompt" :: "output" :: (ps.map (fun p => "param_" ++ p.1) ++ hs.map (fun p => "hyper_" ++ p.1))

/-- State of a constructed PromptExperiment instance. The template and the
prompt parameters are optional because the constructor stores whatever was
passed (possibly None) when no prompt list is given. -/
structure PromptExperiment where
  template_prompt : Option Template
  prompt_parameters : Option ParameterSpace
  hyperparameters : ParameterSpace
  N : Int
  prompt_mode : String
  hyper_mode : String
  seed : Int
deriving DecidableEq, Repr

/-- Errors the constructor model can surface. -/
inductive InitError where
  | assertFailed
deriving DecidableEq, Repr

/-- Truthiness of a Python tuple of the given arity: a tuple is truthy
exactly when it is non-empty. -/
def pyTupleTruthy (arity : Nat) : Bool := arity != 0

/-- Model of PromptExperiment.__init__. The assert on the no-prompts path
asserts a parenthesized (condition, message) pair, i.e. a two-element
tuple, so the asserted value is the tuple itself; random.seed(seed)
replaces the incoming global stream state by seedState seed. -/
def initPromptExperiment (hyperparameters : ParameterSpace) (N : Int)
    (prompt_mode hyper_mode : String) (prompts : Option (List String))
    (template_prompt : Option Template) (prompt_parameters : Option ParameterSpace)
    (seed : Int) (_st : Nat) : Except InitError (PromptExperiment × Nat) :=
  match prompts with
  | none =>
    if pyTupleTruthy 2 then
      Except.ok (⟨template_prompt, prompt_parameters, hyperparameters, N,
        prompt_mode, hyper_mode, seed⟩, seedState seed)
    else Except.error InitError.assertFailed
  | some ps =>
    Except.ok (⟨some [TplPart.slot "prompt"], some [("prompt", ps)], hyperparameters, N,
      prompt_mode, hyper_mode, seed⟩, seedState seed)

/-- Errors a run can surface: an unbound template slot (KeyError from
str.format), an empty candidate list handed to random.choice (IndexError),
or a missing template/parameters attribute left as None by the constructor. -/
inductive RunError where
  | renderMissing (slot : String)
  | emptyCandidates
  | missingConfig
deriving DecidableEq, Repr

/-- Outcome of run_experiments: the result list (or the error that aborted
the run), the trace of (prompt, hyperparameters) arguments passed to the
injected produce operation in call order, and the final stream state. -/
structure RunOut where
  res : Except RunError (List Record)
  calls : List (String × Binding)
  st : Nat
deriving Repr

/-- The monte_carlo × monte_carlo branch of run_experiments: each of the N
iterations draws prompt parameters, renders, draws hyperparameters, then
invokes produce once. -/
def runMCMC (produce : String → Binding → String) (tpl : Template)
    (ps hs : ParameterSpace) : Nat → Nat → RunOut
  | 0, st => ⟨Except.ok [], [], st⟩
  | Nat.succ n, st =>
    match random_params st ps with
    | none => ⟨Except.error RunError.emptyCandidates, [], st⟩
    | some (pp, st1) =>
      match renderTpl tpl pp with
      | Except.error sl => ⟨Except.error (RunError.renderMissing sl), [], st1⟩
      | Except.ok prompt =>
        match random_params st1 hs with
        | none => ⟨Except.error RunError.emptyCandidates, [], st1⟩
        | some (hp, st2) =>
          let out := runMCMC produce tpl ps hs n st2
          ⟨out.res.map (fun rs => flatten_results prompt pp hp (produce prompt hp) :: rs),
            (prompt, hp) :: out.calls, out.st⟩

/-- Inner loop of the factorial × monte_carlo branch: N fresh random
hyperparameter draws for one already-rendered prompt. -/
def runFactMCInner (produce : String → Binding → String) (prompt : String)
    (pp : Binding) (hs : ParameterSpace) : Nat → Nat → RunOut
  | 0, st => ⟨Except.ok [], [], st⟩
  | Nat.succ n, st =>
    match random_params st hs with
    | none => ⟨Except.error RunError.emptyCandidates, [], st⟩
    | some (hp, st1) =>
      let out := runFactMCInner produce prompt pp hs n st1
      ⟨out.res.map (fun rs => flatten_results prompt pp hp (produce prompt hp) :: rs),
        (prompt, hp) :: out.calls, out.st⟩

/-- The factorial × monte_carlo branch: outer loop over every enumerated
prompt binding, the prompt rendered once before the inner loop. -/
def runFactMC (produce : String → Binding → String) (tpl : Template)
    (hs : ParameterSpace) : List Binding → Nat → Nat → RunOut
  | [], _, st => ⟨Except.ok [], [], st⟩
  | pp :: rest, n, st =>
    match renderTpl tpl pp with
    | Except.error sl => ⟨Except.error (RunError.renderMissing sl), [], st⟩
    | Except.ok prompt =>
      let first := runFactMCInner produce prompt pp hs n st
      match first.res with
      | Except.error e => ⟨Except.error e, first.calls, first.st⟩
      | Except.ok rs =>
        let tail := runFactMC produce tpl hs rest n first.st
        ⟨tail.res.map (fun rs2 => rs ++ rs2), first.calls ++ tail.calls, tail.st⟩

/-- The factorial × factorial branch: outer loop over every enumerated
prompt binding, inner loop over every enumerated hyperparameter binding. -/
def runFactFact (produce : String → Binding → String) (tpl : Template)
    (hbs : List Binding) : List Binding → Nat → RunOut
  | [], st => ⟨Except.ok [], [], st⟩
  | pp :: rest, st =>
    match renderTpl tpl pp with
    | Except.error sl => ⟨Except.error (RunError.renderMissing sl), [], st⟩
    | Except.ok prompt =>
      let out := runFactFact produce tpl hbs rest st
      ⟨out.res.map (fun rs =>
          hbs.map (fun hp => flatten_results prompt pp hp (produce prompt hp)) ++ rs),
        hbs.map (fun hp => (prompt, hp)) ++ out.calls, out.st⟩

/-- Inner loop of the monte_carlo × factorial branch: N fresh random prompt
draws (each rendered) for one enumerated hyperparameter binding. -/
def runMCFactInner (produce : String → Binding → String) (tpl : Template)
    (ps : ParameterSpace) (hp : Binding) : Nat → Nat → RunOut
  | 0, st => ⟨Except.ok [], [], st⟩
  | Nat.succ n, st =>
    match random_params st ps with
    | none => ⟨Except.error RunError.emptyCandidates, [], st⟩
    | some (pp, st1) =>
      match renderTpl tpl pp with
      | Except.error sl => ⟨Except.error (RunError.renderMissing sl), [], st1⟩
      | Except.ok prompt =>
        let out := runMCFactInner produce tpl ps hp n st1
        ⟨out.res.map (fun rs => flatten_results prompt pp hp (produce prompt hp) :: rs),
          (prompt, hp) :: out.calls, out.st⟩

/-- The monte_carlo × factorial branch: outer loop over every enumerated
hyperparameter binding, inner loop of N random prompt draws. -/
def runMCFact (produce : String → Binding → String) (tpl : Template)
    (ps : ParameterSpace) : List Binding → Nat → Nat → RunOut
  | [], _, st => ⟨Except.ok [], [], st⟩
  | hp :: rest, n, st =>
    let first := runMCFactInner produce tpl ps hp n st
    match first.res with
    | Except.error e => ⟨Except.error e, first.calls, first.st⟩
    | Except.ok rs =>
      let tail := runMCFact produce tpl ps rest n first.st
      ⟨tail.res.map (fun rs2 => rs ++ rs2), first.calls ++ tail.calls, tail.st⟩

/-- Model of PromptExperiment.run_experiments. Four recognized mode pairs;
any other pair falls through every branch and returns the empty result
list. range(self.N) iterates Int.toNat N times (empty for N below one).
A template or parameter set left as None by the constructor fails lazily,
exactly where the source first touches it: random_params(None) and
factorial_params(None) raise at their call sites (AttributeError on items
or values), and a None template raises only when format is called on it —
so a branch whose loops never reach that touch point (an empty range, an
empty enumeration) still returns the empty result list with no error. -/
def run_experiments (produce : String → Binding → String) (e : PromptExperiment)
    (st : Nat) : RunOut :=
  if e.prompt_mode = "monte_carlo" ∧ e.hyper_mode = "monte_carlo" then
    match e.template_prompt, e.prompt_parameters with
    | some tpl, some ps => runMCMC produce tpl ps e.hyperparameters e.N.toNat st
    | _, ops =>
      match e.N.toNat with
      | 0 => ⟨Except.ok [], [], st⟩
      | Nat.succ _ =>
        match ops with
        | none => ⟨Except.error RunError.missingConfig, [], st⟩
        | some ps =>
          match random_params st ps with
          | none => ⟨Except.error RunError.emptyCandidates, [], st⟩
          | some (_, st1) => ⟨Except.error RunError.missingConfig, [], st1⟩
  else if e.prompt_mode = "factorial" ∧ e.hyper_mode = "monte_carlo" then
    match e.template_prompt, e.prompt_parameters with
    | some tpl, some ps =>
      runFactMC produce tpl e.hyperparameters (factorial_params ps) e.N.toNat st
    | _, ops =>
      match ops with
      | none => ⟨Except.error RunError.missingConfig, [], st⟩
      | some ps =>
        match factorial_params ps with
        | [] => ⟨Except.ok [], [], st⟩
        | _ :: _ => ⟨Except.error RunError.missingConfig, [], st⟩
  else if e.prompt_mode = "factorial" ∧ e.hyper_mode = "factorial" then
    match e.template_prompt, e.prompt_parameters with
    | some tpl, some ps =>
      runFactFact produce tpl (factorial_params e.hyperparameters) (factorial_params ps) st
    | _, ops =>
      match ops with
      | none => ⟨Except.error RunError.missingConfig, [], st⟩
      | some ps =>
        match factorial_params ps with
        | [] => ⟨Except.ok [], [], st⟩
        | _ :: _ => ⟨Except.error RunError.missingConfig, [], st⟩
  else if e.prompt_mode = "monte_carlo" ∧ e.hyper_mode = "factorial" then
    match e.template_prompt, e.prompt_parameters with
    | some tpl, some ps =>
      runMCFact produce tpl ps (factorial_params e.hyperparameters) e.N.toNat st
    | _, ops =>
      match factorial_params e.hyperparameters with
      | [] => ⟨Except.ok [], [], st⟩
      | _ :: _ =>
        match e.N.toNat with
        | 0 => ⟨Except.ok [], [], st⟩
        | Nat.succ _ =>
          match ops with
          | none => ⟨Except.error RunError.missingConfig, [], st⟩
          | some ps =>
            match random_params st ps with
            | none => ⟨Except.error RunError.emptyCandidates, [], st⟩
            | some (_, st1) => ⟨Except.error RunError.missingConfig, [], st1⟩
  else ⟨Except.ok [], [], st⟩

/-- Monte-carlo body of generate_prompts: N draws, each rendered. -/
def genPromptsMC (tpl : Template) (ps : ParameterSpace) : Nat → Nat → Except RunError (List String × Nat)
  | 0, st => Except.ok ([], st)
  | Nat.succ n, st =>
    match random_params st ps with
    | none => Except.error RunError.emptyCandidates
    | some (pp, st1) =>
      match renderTpl tpl pp with
      | Except.error sl => Except.error (RunError.renderMissing sl)
      | Except.ok prompt =>
        match genPromptsMC tpl ps n st1 with
        | Except.error e => Except.error e
        | Except.ok (rs, st2) => Except.ok (prompt :: rs, st2)

/-- Factorial body of generate_prompts: every enumerated binding rendered. -/
def genPromptsFact (tpl : Template) : List Binding → Except RunError (List String)
  | [] => Except.ok []
  | pp :: rest =>
    match renderTpl tpl pp with
    | Except.error sl => Except.error (RunError.renderMissing sl)
    | Except.ok prompt => (genPromptsFact tpl rest).map (fun rs => prompt :: rs)

/-- Model of PromptExperiment.generate_prompts: none for an unrecognized
mode (the Python function falls off the if/elif chain and returns None).
As in run_experiments, a template or parameter set left as None fails only
where the comprehension first touches it, so an empty range or an empty
enumeration yields the empty list with no error. -/
def generate_prompts (e : PromptExperiment) (st : Nat) : Option (Except RunError (List String × Nat)) :=
  if e.prompt_mode = "monte_carlo" then
    match e.template_prompt, e.prompt_parameters with
    | some tpl, some ps => some (genPromptsMC tpl ps e.N.toNat st)
    | _, ops =>
      match e.N.toNat with
      | 0 => some (Except.ok ([], st))
      | Nat.succ _ =>
        match ops with
        | none => some (Except.error RunError.missingConfig)
        | some ps =>
          match random_params st ps with
          | none => some (Except.error RunError.emptyCandidates)
          | some _ => some (Except.error RunError.missingConfig)
  else if e.prompt_mode = "factorial" then
    match e.template_prompt, e.prompt_parameters with
    | some tpl, some ps => some ((genPromptsFact tpl (factorial_params ps)).map (fun rs => (rs, st)))
    | _, ops =>
      match ops with
      | none => some (Except.error RunError.missingConfig)
      | some ps =>
        match factorial_params ps with
        | [] => some (Except.ok ([], st))
        | _ :: _ => some (Except.error RunError.missingConfig)
  else none

/-- Model of PromptExperiment.generate_hyperparameters: none for an
unrecognized mode. -/
def generate_hyperparameters (e : PromptExperiment) (st : Nat) : Option (Except RunError (List Binding × Nat)) :=
  if e.hyper_mode = "monte_carlo" then
    match randomParamsN e.hyperparameters e.N.toNat st with
    | none => some (Except.error RunError.emptyCandidates)
    | some (bs, st1) => some (Except.ok (bs, st1))
  else if e.hyper_mode = "factorial" then
    some (Except.ok (factorial_params e.hyperparameters, st))
  else none

/-- One concrete condition: rendered prompt, prompt binding, hyper binding. -/
abbrev Condition := String × Binding × Binding

/-- The produce-call argument pair of a condition. -/
def condCall (c : Condition) : String × Binding := (c.1, c.2.2)

/-- The record a condition flattens to, given the produce operation. -/
def condRecord (produce : String → Binding → String) (c : Condition) : Record :=
  flatten_results c.1 c.2.1 c.2.2 (produce c.1 c.2.2)

/-- The cross-product condition list: outer loop over prompt bindings,
inner loop over hyperparameter bindings. -/
def crossConds (tpl : Template) (pbs hbs : List Binding) : List Condition :=
  pbs.flatMap (fun pp => hbs.map (fun hp => (renderTotal tpl pp, pp, hp)))

lemma lookupBinding_isSome_iff (b : Binding) (k : String) :
    (lookupBinding b k).isSome = true ↔ k ∈ b.map Prod.fst := by
  unfold lookupBinding
  cases hf : List.find? (fun p => p.1 == k) b with
  | none =>
    simp only [Option.map_none', Option.isSome_none]
    constructor
    · intro h; exact Bool.noConfusion h
    · intro hmem
      obtain ⟨x, hx, rfl⟩ := List.mem_map.mp hmem
      have hno := List.find?_eq_none.mp hf x hx
      simp at hno
  | some p =>
    simp only [Option.map_some', Option.isSome_some, true_iff]
    have hmem := List.mem_of_find?_eq_some hf
    have hpred := List.find?_some hf
    simp only [beq_iff_eq] at hpred
    exact hpred ▸ List.mem_map_of_mem Prod.fst hmem

lemma renderTpl_ok (t : Template) (b : Binding)
    (h : ∀ n ∈ tplSlots t, n ∈ b.map Prod.fst) :
    renderTpl t b = Except.ok (renderTotal t b) := by
  induction t with
  | nil => rfl
  | cons part rest ih =>
    cases part with
    | lit s =>
      have hr := ih (fun n hn => h n hn)
      simp [renderTpl, renderTotal, hr, Except.map]
    | slot n =>
      have hn : n ∈ b.map Prod.fst := h n (by simp [tplSlots])
      obtain ⟨v, hv⟩ := Option.isSome_iff_exists.mp ((lookupBinding_isSome_iff b n).mpr hn)
      have hr := ih (fun m hm => h m (by simp [tplSlots, hm]))
      simp [renderTpl, renderTotal, hv, hr, Except.map]

lemma renderTpl_err (t : Template) (b : Binding)
    (h : ∃ n ∈ tplSlots t, n ∉ b.map Prod.fst) :
    ∃ sl, renderTpl t b = Except.error sl := by
  induction t with
  | nil => simp [tplSlots] at h
  | cons part rest ih =>
    cases part with
    | lit s =>
      obtain ⟨sl, hsl⟩ := ih h
      exact ⟨sl, by simp [renderTpl, hsl, Except.map]⟩
    | slot n =>
      by_cases hn : n ∈ b.map Prod.fst
      · obtain ⟨m, hm, hmb⟩ := h
        simp only [tplSlots, List.mem_cons] at hm
        rcases hm with rfl | hm
        · exact absurd hn hmb
        · obtain ⟨sl, hsl⟩ := ih ⟨m, hm, hmb⟩
          obtain ⟨v, hv⟩ := Option.isSome_iff_exists.mp ((lookupBinding_isSome_iff b n).mpr hn)
          exact ⟨sl, by simp [renderTpl, hv, hsl, Except.map]⟩
      · have hnone : lookupBinding b n = none := by
          cases hcase : lookupBinding b n with
          | none => rfl
          | some v =>
            exact absurd ((lookupBinding_isSome_iff b n).mp (by simp [hcase])) hn
        exact ⟨n, by simp [renderTpl, hnone]⟩

lemma randChoice_of_ne_nil (st : Nat) (values : List String) (h : values ≠ []) :
    ∃ v, randChoice st values = some (v, rngNext st) ∧ v ∈ values := by
  have hl : 0 < values.length := List.length_pos.mpr h
  exact ⟨values.get ⟨pickIndex (rngNext st) values.length, Nat.mod_lt _ hl⟩,
    by simp [randChoice, hl], List.get_mem _ _ _⟩

lemma random_params_spec (s : ParameterSpace) (hne : ∀ p ∈ s, p.2 ≠ []) (st : Nat) :
    ∃ b, random_params st s = some (b, rngNext^[s.length] st) ∧
      b.map Prod.fst = s.map Prod.fst ∧ isSelection b s = true := by
  induction s generalizing st with
  | nil => exact ⟨[], rfl, rfl, rfl⟩
  | cons p rest ih =>
    obtain ⟨name, values⟩ := p
    have hv : values ≠ [] := hne (name, values) (by simp)
    obtain ⟨v, hc, hvmem⟩ := randChoice_of_ne_nil st values hv
    obtain ⟨b, hb, hkeys, hsel⟩ := ih (fun q hq => hne q (by simp [hq])) (rngNext st)
    refine ⟨(name, v) :: b, ?_, by simp [hkeys], ?_⟩
    · simp only [random_params, hc, hb, List.length_cons]
      rw [Function.iterate_succ_apply]
    · simp [isSelection, hsel, List.elem_iff, hvmem]

lemma randomParamsN_spec (s : ParameterSpace) (hne : ∀ p ∈ s, p.2 ≠ []) (n : Nat) (st : Nat) :
    ∃ bs, randomParamsN s n st = some (bs, rngNext^[n * s.length] st) ∧
      bs.length = n ∧ ∀ b ∈ bs, b.map Prod.fst = s.map Prod.fst ∧ isSelection b s = true := by
  induction n generalizing st with
  | zero => exact ⟨[], by simp [randomParamsN], rfl, by simp⟩
  | succ n ih =>
    obtain ⟨b, hb, hbk, hbsel⟩ := random_params_spec s hne st
    obtain ⟨bs, hbs, hlen, hall⟩ := ih (rngNext^[s.length] st)
    refine ⟨b :: bs, ?_, by simp [hlen], ?_⟩
    · simp only [randomParamsN, hb, hbs]
      rw [← Function.iterate_add_apply, Nat.succ_mul]
    · intro b' hb'
      rcases List.mem_cons.mp hb' with rfl | hb'
      · exact ⟨hbk, hbsel⟩
      · exact hall b' hb'

lemma sum_map_const_nat {α : Type} (l : List α) (c : Nat) :
    (l.map (fun _ => c)).sum = l.length * c := by
  induction l with
  | nil => simp
  | cons x xs ih => simp [ih, Nat.succ_mul, Nat.add_comm]

lemma factorial_params_nil : factorial_params [] = [[]] := rfl

lemma factorial_params_cons (name : String) (values : List String) (rest : ParameterSpace) :
    factorial_params ((name, values) :: rest) =
      values.flatMap (fun v => (factorial_params rest).map (fun b => (name, v) :: b)) := by
  unfold factorial_params
  simp only [List.map_cons, listProduct, List.map_flatMap, List.map_map]
  congr 1

lemma cardinality_cons (name : String) (values : List String) (rest : ParameterSpace) :
    cardinality ((name, values) :: rest) = values.length * cardinality rest := by
  simp [cardinality]

lemma factorial_params_length (s : ParameterSpace) :
    (factorial_params s).length = cardinality s := by
  induction s with
  | nil => rfl
  | cons p rest ih =>
    obtain ⟨name, values⟩ := p
    rw [factorial_params_cons, cardinality_cons, List.length_flatMap, ← ih]
    have hmap : (List.map (List.length ∘ fun v => (factorial_params rest).map (fun b => (name, v) :: b)) values)
        = values.map (fun _ => (factorial_params rest).length) := by
      simp only [Function.comp_def, List.length_map]
    rw [hmap, sum_map_const_nat]

lemma factorial_params_keys (s : ParameterSpace) :
    ∀ b ∈ factorial_params s, b.map Prod.fst = s.map Prod.fst := by
  induction s with
  | nil =>
    intro b hb
    simp only [factorial_params_nil, List.mem_singleton] at hb
    simp [hb]
  | cons p rest ih =>
    obtain ⟨name, values⟩ := p
    intro b hb
    rw [factorial_params_cons] at hb
    simp only [List.mem_flatMap, List.mem_map] at hb
    obtain ⟨v, _, b', hb', rfl⟩ := hb
    simp [ih b' hb']

lemma factorial_params_mem_iff (s : ParameterSpace) (b : Binding) :
    b ∈ factorial_params s ↔ isSelection b s = true := by
  induction s generalizing b with
  | nil =>
    simp only [factorial_params_nil, List.mem_singleton]
    cases b <;> simp [isSelection]
  | cons p rest ih =>
    obtain ⟨name, values⟩ := p
    rw [factorial_params_cons]
    simp only [List.mem_flatMap, List.mem_map]
    cases b with
    | nil =>
      constructor
      · rintro ⟨v, _, b0, _, h⟩; cases h
      · intro h; exact Bool.noConfusion h
    | cons q b' =>
      obtain ⟨k, v⟩ := q
      constructor
      · rintro ⟨v0, hv0, b0, hb0, heq⟩
        injection heq with h1 h2
        injection h1 with hk hv
        subst hk
        subst hv
        subst h2
        simp [isSelection, List.elem_iff, hv0, (ih b0).mp hb0]
      · intro hsel
        simp only [isSelection, Bool.and_eq_true, beq_iff_eq] at hsel
        obtain ⟨⟨hk, hv⟩, hrest⟩ := hsel
        subst hk
        exact ⟨v, List.elem_iff.mp hv, b', (ih b').mpr hrest, rfl⟩

lemma factorial_params_nodup (s : ParameterSpace) (h : ∀ p ∈ s, p.2.Nodup) :
    (factorial_params s).Nodup := by
  induction s with
  | nil => simp [factorial_params_nil]
  | cons p rest ih =>
    obtain ⟨name, values⟩ := p
    rw [factorial_params_cons, List.nodup_flatMap]
    refine ⟨fun v _ => (ih (fun q hq => h q (by simp [hq]))).map List.cons_injective, ?_⟩
    have hv : values.Nodup := h (name, values) (by simp)
    refine hv.imp ?_
    intro a b hab x hxa hxb
    simp only [List.mem_map] at hxa hxb
    obtain ⟨b1, _, rfl⟩ := hxa
    obtain ⟨b2, _, heq⟩ := hxb
    injection heq with h1 h2
    injection h1 with _ hv
    exact hab hv.symm

lemma factorial_params_of_empty (s : ParameterSpace) (h : ∃ p ∈ s, p.2 = []) :
    factorial_params s = [] := by
  induction s with
  | nil => simp at h
  | cons p rest ih =>
    obtain ⟨name, values⟩ := p
    rw [factorial_params_cons]
    by_cases hv : values = []
    · subst hv; rfl
    · obtain ⟨q, hq, hq2⟩ := h
      rcases List.mem_cons.mp hq with rfl | hq
      · exact absurd hq2 hv
      · rw [ih ⟨q, hq, hq2⟩]
        simp

lemma param_key_ne_prompt (k : String) : "param_" ++ k ≠ "prompt" := by
  intro he
  have h2 : "param_".data ++ k.data = "prompt".data := by
    rw [← String.data_append, he]
  have h3 : (some 'a' : Option Char) = some 'r' := by
    calc (some 'a' : Option Char) = ("param_".data ++ k.data).get? 1 := rfl
    _ = "prompt".data.get? 1 := by rw [h2]
    _ = some 'r' := rfl
  exact absurd h3 (by decide)

lemma param_key_ne_output (k : String) : "param_" ++ k ≠ "output" := by
  intro he
  have h2 : "param_".data ++ k.data = "output".data := by
    rw [← String.data_append, he]
  have h3 : (some 'p' : Option Char) = some 'o' := by
    calc (some 'p' : Option Char) = ("param_".data ++ k.data).get? 0 := rfl
    _ = "output".data.get? 0 := by rw [h2]
    _ = some 'o' := rfl
  exact absurd h3 (by decide)

lemma hyper_key_ne_prompt (k : String) : "hyper_" ++ k ≠ "prompt" := by
  intro he
  have h2 : "hyper_".data ++ k.data = "prompt".data := by
    rw [← String.data_append, he]
  have h3 : (some 'h' : Option Char) = some 'p' := by
    calc (some 'h' : Option Char) = ("hyper_".data ++ k.data).get? 0 := rfl
    _ = "prompt".data.get? 0 := by rw [h2]
    _ = some 'p' := rfl
  exact absurd h3 (by decide)

lemma hyper_key_ne_output (k : String) : "hyper_" ++ k ≠ "output" := by
  intro he
  have h2 : "hyper_".data ++ k.data = "output".data := by
    rw [← String.data_append, he]
  have h3 : (some 'h' : Option Char) = some 'o' := by
    calc (some 'h' : Option Char) = ("hyper_".data ++ k.data).get? 0 := rfl
    _ = "output".data.get? 0 := by rw [h2]
    _ = some 'o' := rfl
  exact absurd h3 (by decide)

lemma param_key_ne_hyper_key (k k' : String) : "param_" ++ k ≠ "hyper_" ++ k' := by
  intro he
  have h2 : "param_".data ++ k.data = "hyper_".data ++ k'.data := by
    rw [← String.data_append, ← String.data_append, he]
  have h3 : (some 'p' : Option Char) = some 'h' := by
    calc (some 'p' : Option Char) = ("param_".data ++ k.data).get? 0 := rfl
    _ = ("hyper_".data ++ k'.data).get? 0 := by rw [h2]
    _ = some 'h' := rfl
  exact absurd h3 (by decide)

lemma string_append_left_cancel {a k k' : String} (h : a ++ k = a ++ k') : k = k' := by
  have h2 : a.data ++ k.data = a.data ++ k'.data := by
    rw [← String.data_append, ← String.data_append, h]
  exact String.ext (List.append_cancel_left h2)

lemma dictInsert_fresh (d : Record) (k v : String) (h : ∀ p ∈ d, p.1 ≠ k) :
    dictInsert d k v = d ++ [(k, v)] := by
  unfold dictInsert
  have hany : d.any (fun p => p.1 == k) = false := by
    rw [List.any_eq_false]
    intro p hp
    simpa using h p hp
  rw [hany]
  simp

lemma dictUpdate_fresh (d : Record) (items : List (String × String))
    (hfresh : ∀ q ∈ items, ∀ p ∈ d, p.1 ≠ q.1) (hnodup : (items.map Prod.fst).Nodup) :
    dictUpdate d items = d ++ items := by
  induction items generalizing d with
  | nil => simp [dictUpdate]
  | cons it rest ih =>
    obtain ⟨k, v⟩ := it
    have h1 : ∀ p ∈ d, p.1 ≠ k := fun p hp => hfresh (k, v) (by simp) p hp
    have hstep : dictUpdate d ((k, v) :: rest) = dictUpdate (dictInsert d k v) rest := rfl
    simp only [List.map_cons, List.nodup_cons] at hnodup
    rw [hstep, dictInsert_fresh d k v h1, ih]
    · simp
    · intro q hq p hp
      rcases List.mem_append.mp hp with hp | hp
      · exact hfresh q (by simp [hq]) p hp
      · simp only [List.mem_singleton] at hp
        subst hp
        intro hkq
        apply hnodup.1
        rw [show k = q.1 from hkq]
        exact List.mem_map_of_mem Prod.fst hq
    · exact hnodup.2

lemma flatten_results_eq (prompt : String) (pp hp : Binding) (response : String)
    (hpp : (pp.map Prod.fst).Nodup) (hhp : (hp.map Prod.fst).Nodup) :
    flatten_results prompt pp hp response =
      ("prompt", prompt) :: ("output", response) ::
        (pp.map (fun p => ("param_" ++ p.1, p.2)) ++ hp.map (fun p => ("hyper_" ++ p.1, p.2))) := by
  have hppn : ((pp.map (fun p => ("param_" ++ p.1, p.2))).map Prod.fst).Nodup := by
    rw [List.map_map]
    have : (Prod.fst ∘ fun p : String × String => ("param_" ++ p.1, p.2)) =
        (fun k => "param_" ++ k) ∘ Prod.fst := rfl
    rw [this, ← List.map_map]
    exact hpp.map (fun x y h => string_append_left_cancel h)
  have hhpn : ((hp.map (fun p => ("hyper_" ++ p.1, p.2))).map Prod.fst).Nodup := by
    rw [List.map_map]
    have : (Prod.fst ∘ fun p : String × String => ("hyper_" ++ p.1, p.2)) =
        (fun k => "hyper_" ++ k) ∘ Prod.fst := rfl
    rw [this, ← List.map_map]
    exact hhp.map (fun x y h => string_append_left_cancel h)
  have hinner : dictUpdate [("prompt", prompt), ("output", response)]
      (pp.map (fun p => ("param_" ++ p.1, p.2)))
      = [("prompt", prompt), ("output", response)] ++ pp.map (fun p => ("param_" ++ p.1, p.2)) := by
    apply dictUpdate_fresh _ _ _ hppn
    intro q hq p hp2
    obtain ⟨x, _, rfl⟩ := List.mem_map.mp hq
    rcases List.mem_cons.mp hp2 with rfl | hp2
    · exact fun hc => param_key_ne_prompt x.1 (by simpa using hc.symm)
    · simp only [List.mem_singleton] at hp2
      subst hp2
      exact fun hc => param_key_ne_output x.1 (by simpa using hc.symm)
  unfold flatten_results
  rw [hinner, dictUpdate_fresh _ _ ?_ hhpn]
  · simp
  · intro q hq p hp2
    obtain ⟨x, _, rfl⟩ := List.mem_map.mp hq
    rcases List.mem_append.mp hp2 with hp2 | hp2
    · rcases List.mem_cons.mp hp2 with rfl | hp2
      · exact fun hc => hyper_key_ne_prompt x.1 (by simpa using hc.symm)
      · simp only [List.mem_singleton] at hp2
        subst hp2
        exact fun hc => hyper_key_ne_output x.1 (by simpa using hc.symm)
    · obtain ⟨y, _, rfl⟩ := List.mem_map.mp hp2
      exact fun hc => param_key_ne_hyper_key y.1 x.1 (by simpa using hc)

lemma recordKeys_flatten (prompt : String) (pp hp : Binding) (response : String)
    (ps hs : ParameterSpace) (hppk : pp.map Prod.fst = ps.map Prod.fst)
    (hhpk : hp.map Prod.fst = hs.map Prod.fst)
    (hpn : (ps.map Prod.fst).Nodup) (hhn : (hs.map Prod.fst).Nodup) :
    recordKeys (flatten_results prompt pp hp response) = canonKeys ps hs := by
  rw [recordKeys, flatten_results_eq prompt pp hp response (hppk ▸ hpn) (hhpk ▸ hhn)]
  have h1 : pp.map (fun p => "param_" ++ p.1) = ps.map (fun p => "param_" ++ p.1) := by
    have ha : pp.map (fun p => "param_" ++ p.1) = (pp.map Prod.fst).map (fun k => "param_" ++ k) := by
      rw [List.map_map]; rfl
    have hb : ps.map (fun p => "param_" ++ p.1) = (ps.map Prod.fst).map (fun k => "param_" ++ k) := by
      rw [List.map_map]; rfl
    rw [ha, hb, hppk]
  have h2 : hp.map (fun p => "hyper_" ++ p.1) = hs.map (fun p => "hyper_" ++ p.1) := by
    have ha : hp.map (fun p => "hyper_" ++ p.1) = (hp.map Prod.fst).map (fun k => "hyper_" ++ k) := by
      rw [List.map_map]; rfl
    have hb : hs.map (fun p => "hyper_" ++ p.1) = (hs.map Prod.fst).map (fun k => "hyper_" ++ k) := by
      rw [List.map_map]; rfl
    rw [ha, hb, hhpk]
  simp only [canonKeys, List.map_cons, List.map_append, List.map_map]
  rw [show (Prod.fst ∘ fun p : String × String => ("param_" ++ p.1, p.2)) =
      (fun p : String × String => "param_" ++ p.1) from rfl]
  rw [show (Prod.fst ∘ fun p : String × String => ("hyper_" ++ p.1, p.2)) =
      (fun p : String × String => "hyper_" ++ p.1) from rfl]
  rw [h1, h2]

lemma random_params_of_empty (s : ParameterSpace) (h : ∃ p ∈ s, p.2 = []) (st : Nat) :
    random_params st s = none := by
  induction s generalizing st with
  | nil => simp at h
  | cons p rest ih =>
    obtain ⟨name, values⟩ := p
    by_cases hv : values = []
    · subst hv
      simp [random_params, randChoice]
    · obtain ⟨q, hq, hq2⟩ := h
      rcases List.mem_cons.mp hq with rfl | hq
      · exact absurd hq2 hv
      · obtain ⟨v, hc, _⟩ := randChoice_of_ne_nil st values hv
        simp [random_params, hc, ih ⟨q, hq, hq2⟩]

lemma runFactFact_spec (produce : String → Binding → String) (tpl : Template)
    (hbs pbs : List Binding) (st : Nat)
    (hrender : ∀ pp ∈ pbs, renderTpl tpl pp = Except.ok (renderTotal tpl pp)) :
    runFactFact produce tpl hbs pbs st =
      ⟨Except.ok ((crossConds tpl pbs hbs).map (condRecord produce)),
        (crossConds tpl pbs hbs).map condCall, st⟩ := by
  induction pbs with
  | nil => rfl
  | cons pp rest ih =>
    have hr := hrender pp (by simp)
    rw [show runFactFact produce tpl hbs (pp :: rest) st =
        (match renderTpl tpl pp with
        | Except.error sl => ⟨Except.error (RunError.renderMissing sl), [], st⟩
        | Except.ok prompt =>
          let out := runFactFact produce tpl hbs rest st
          ⟨out.res.map (fun rs =>
              hbs.map (fun hp => flatten_results prompt pp hp (produce prompt hp)) ++ rs),
            hbs.map (fun hp => (prompt, hp)) ++ out.calls, out.st⟩ : RunOut) from rfl]
    rw [hr, ih (fun q hq => hrender q (by simp [hq]))]
    simp [crossConds, List.flatMap_cons, condRecord, condCall, List.map_map, Except.map,
      Function.comp_def]

lemma runMCMC_spec (produce : String → Binding → String) (tpl : Template)
    (ps hs : ParameterSpace)
    (hps : ∀ p ∈ ps, p.2 ≠ []) (hhs : ∀ p ∈ hs, p.2 ≠ [])
    (hslots : ∀ m ∈ tplSlots tpl, m ∈ ps.map Prod.fst) :
    ∀ (n : Nat) (st : Nat), ∃ conds : List Condition,
      runMCMC produce tpl ps hs n st =
        ⟨Except.ok (conds.map (condRecord produce)), conds.map condCall,
          rngNext^[n * (ps.length + hs.length)] st⟩ ∧
      conds.length = n ∧
      ∀ c ∈ conds, c.2.1.map Prod.fst = ps.map Prod.fst ∧
        c.2.2.map Prod.fst = hs.map Prod.fst ∧ c.1 = renderTotal tpl c.2.1 := by
  intro n
  induction n with
  | zero => intro st; exact ⟨[], by simp [runMCMC], rfl, by simp⟩
  | succ n ih =>
    intro st
    obtain ⟨pp, hpp, hppk, _⟩ := random_params_spec ps hps st
    have hrender : renderTpl tpl pp = Except.ok (renderTotal tpl pp) :=
      renderTpl_ok tpl pp (fun m hm => hppk ▸ hslots m hm)
    obtain ⟨hp, hhp, hhpk, _⟩ := random_params_spec hs hhs (rngNext^[ps.length] st)
    obtain ⟨conds, hrun, hlen, hprops⟩ := ih (rngNext^[hs.length] (rngNext^[ps.length] st))
    refine ⟨(renderTotal tpl pp, pp, hp) :: conds, ?_, by simp [hlen], ?_⟩
    · simp only [runMCMC, hpp, hrender, hhp, hrun, Except.map, List.map_cons]
      congr 1
      rw [← Function.iterate_add_apply, ← Function.iterate_add_apply]
      congr 1
      ring
    · intro c hc
      rcases List.mem_cons.mp hc with rfl | hc
      · exact ⟨hppk, hhpk, rfl⟩
      · exact hprops c hc

lemma runFactMCInner_spec (produce : String → Binding → String) (prompt : String)
    (pp : Binding) (hs : ParameterSpace) (hhs : ∀ p ∈ hs, p.2 ≠ []) :
    ∀ (n : Nat) (st : Nat), ∃ hps : List Binding,
      runFactMCInner produce prompt pp hs n st =
        ⟨Except.ok ((hps.map (fun hp => ((prompt, pp, hp) : Condition))).map (condRecord produce)),
          (hps.map (fun hp => ((prompt, pp, hp) : Condition))).map condCall,
          rngNext^[n * hs.length] st⟩ ∧
      hps.length = n ∧ ∀ b ∈ hps, b.map Prod.fst = hs.map Prod.fst := by
  intro n
  induction n with
  | zero => intro st; exact ⟨[], by simp [runFactMCInner], rfl, by simp⟩
  | succ n ih =>
    intro st
    obtain ⟨hp, hhp, hhpk, _⟩ := random_params_spec hs hhs st
    obtain ⟨hps, hrun, hlen, hprops⟩ := ih (rngNext^[hs.length] st)
    refine ⟨hp :: hps, ?_, by simp [hlen], ?_⟩
    · simp only [runFactMCInner, hhp, hrun, Except.map, List.map_cons]
      congr 1
      rw [← Function.iterate_add_apply]
      congr 1
      ring
    · intro b hb
      rcases List.mem_cons.mp hb with rfl | hb
      · exact hhpk
      · exact hprops b hb

lemma runFactMC_spec (produce : String → Binding → String) (tpl : Template)
    (hs : ParameterSpace) (hhs : ∀ p ∈ hs, p.2 ≠ []) (pbs : List Binding)
    (hrender : ∀ pp ∈ pbs, renderTpl tpl pp = Except.ok (renderTotal tpl pp)) :
    ∀ (n : Nat) (st : Nat), ∃ conds : List Condition,
      runFactMC produce tpl hs pbs n st =
        ⟨Except.ok (conds.map (condRecord produce)), conds.map condCall,
          rngNext^[pbs.length * (n * hs.length)] st⟩ ∧
      conds.length = pbs.length * n ∧
      ∀ c ∈ conds, c.2.1 ∈ pbs ∧ c.2.2.map Prod.fst = hs.map Prod.fst ∧
        c.1 = renderTotal tpl c.2.1 := by
  induction pbs with
  | nil => intro n st; exact ⟨[], by simp [runFactMC], by simp, by simp⟩
  | cons pp rest ih =>
    intro n st
    have hr := hrender pp (by simp)
    obtain ⟨hps, hfirst, hflen, hfprops⟩ := runFactMCInner_spec produce (renderTotal tpl pp) pp hs hhs n st
    obtain ⟨conds, htail, htlen, htprops⟩ :=
      ih (fun q hq => hrender q (by simp [hq])) n (rngNext^[n * hs.length] st)
    refine ⟨hps.map (fun hp => ((renderTotal tpl pp, pp, hp) : Condition)) ++ conds, ?_, ?_, ?_⟩
    · simp only [runFactMC, hr, hfirst, htail, Except.map, List.map_append]
      congr 1
      rw [← Function.iterate_add_apply]
      congr 1
      simp only [List.length_cons]
      ring
    · simp [hflen, htlen, Nat.succ_mul, Nat.add_comm]
    · intro c hc
      rcases List.mem_append.mp hc with hc | hc
      · obtain ⟨hp, hhp2, rfl⟩ := List.mem_map.mp hc
        exact ⟨by simp, hfprops hp hhp2, rfl⟩
      · obtain ⟨h1, h2, h3⟩ := htprops c hc
        exact ⟨by simp [h1], h2, h3⟩

lemma runMCFactInner_spec (produce : String → Binding → String) (tpl : Template)
    (ps : ParameterSpace) (hp : Binding)
    (hps : ∀ p ∈ ps, p.2 ≠ []) (hslots : ∀ m ∈ tplSlots tpl, m ∈ ps.map Prod.fst) :
    ∀ (n : Nat) (st : Nat), ∃ pps : List Binding,
      runMCFactInner produce tpl ps hp n st =
        ⟨Except.ok ((pps.map (fun pp => ((renderTotal tpl pp, pp, hp) : Condition))).map (condRecord produce)),
          (pps.map (fun pp => ((renderTotal tpl pp, pp, hp) : Condition))).map condCall,
          rngNext^[n * ps.length] st⟩ ∧
      pps.length = n ∧ ∀ b ∈ pps, b.map Prod.fst = ps.map Prod.fst := by
  intro n
  induction n with
  | zero => intro st; exact ⟨[], by simp [runMCFactInner], rfl, by simp⟩
  | succ n ih =>
    intro st
    obtain ⟨pp, hpp, hppk, _⟩ := random_params_spec ps hps st
    have hrender : renderTpl tpl pp = Except.ok (renderTotal tpl pp) :=
      renderTpl_ok tpl pp (fun m hm => hppk ▸ hslots m hm)
    obtain ⟨pps, hrun, hlen, hprops⟩ := ih (rngNext^[ps.length] st)
    refine ⟨pp :: pps, ?_, by simp [hlen], ?_⟩
    · simp only [runMCFactInner, hpp, hrender, hrun, Except.map, List.map_cons]
      congr 1
      rw [← Function.iterate_add_apply]
      congr 1
      ring
    · intro b hb
      rcases List.mem_cons.mp hb with rfl | hb
      · exact hppk
      · exact hprops b hb

lemma runMCFact_spec (produce : String → Binding → String) (tpl : Template)
    (ps : ParameterSpace)
    (hps : ∀ p ∈ ps, p.2 ≠ []) (hslots : ∀ m ∈ tplSlots tpl, m ∈ ps.map Prod.fst)
    (hbs : List Binding) :
    ∀ (n : Nat) (st : Nat), ∃ conds : List Condition,
      runMCFact produce tpl ps hbs n st =
        ⟨Except.ok (conds.map (condRecord produce)), conds.map condCall,
          rngNext^[hbs.length * (n * ps.length)] st⟩ ∧
      conds.length = hbs.length * n ∧
      ∀ c ∈ conds, c.2.1.map Prod.fst = ps.map Prod.fst ∧ c.2.2 ∈ hbs ∧
        c.1 = renderTotal tpl c.2.1 := by
  induction hbs with
  | nil => intro n st; exact ⟨[], by simp [runMCFact], by simp, by simp⟩
  | cons hp rest ih =>
    intro n st
    obtain ⟨pps, hfirst, hflen, hfprops⟩ := runMCFactInner_spec produce tpl ps hp hps hslots n st
    obtain ⟨conds, htail, htlen, htprops⟩ := ih n (rngNext^[n * ps.length] st)
    refine ⟨pps.map (fun pp => ((renderTotal tpl pp, pp, hp) : Condition)) ++ conds, ?_, ?_, ?_⟩
    · simp only [runMCFact, hfirst, htail, Except.map, List.map_append]
      congr 1
      rw [← Function.iterate_add_apply]
      congr 1
      simp only [List.length_cons]
      ring
    · simp [hflen, htlen, Nat.succ_mul, Nat.add_comm]
    · intro c hc
      rcases List.mem_append.mp hc with hc | hc
      · obtain ⟨pp, hpp2, rfl⟩ := List.mem_map.mp hc
        exact ⟨hfprops pp hpp2, by simp, rfl⟩
      · obtain ⟨h1, h2, h3⟩ := htprops c hc
        exact ⟨h1, by simp [h2], h3⟩

lemma crossConds_length (tpl : Template) (pbs hbs : List Binding) :
    (crossConds tpl pbs hbs).length = pbs.length * hbs.length := by
  induction pbs with
  | nil => simp [crossConds]
  | cons pp rest ih =>
    simp only [crossConds, List.flatMap_cons, List.length_append, List.length_map,
      List.length_cons] at ih ⊢
    rw [ih, Nat.succ_mul]
    omega

lemma cardinality_pos (s : ParameterSpace) (h : ∀ p ∈ s, p.2 ≠ []) :
    0 < cardinality s := by
  induction s with
  | nil => exact Nat.one_pos
  | cons p rest ih =>
    obtain ⟨name, values⟩ := p
    rw [cardinality_cons]
    exact Nat.mul_pos (List.length_pos.mpr (h (name, values) (by simp)))
      (ih (fun q hq => h q (by simp [hq])))

lemma factorial_params_ne_nil (s : ParameterSpace) (h : ∀ p ∈ s, p.2 ≠ []) :
    factorial_params s ≠ [] := by
  have hl : 0 < (factorial_params s).length := by
    rw [factorial_params_length]
    exact cardinality_pos s h
  exact List.length_pos.mp hl

lemma run_experiments_mcmc_eq (produce : String → Binding → String) (tpl : Template)
    (ps hs : ParameterSpace) (N : Nat) (seed : Int) (st : Nat) :
    run_experiments produce ⟨some tpl, some ps, hs, Int.ofNat N, "monte_carlo", "monte_carlo", seed⟩ st
      = runMCMC produce tpl ps hs N st := by
  unfold run_experiments
  rw [if_pos ⟨rfl, rfl⟩]
  simp

lemma run_experiments_fmc_eq (produce : String → Binding → String) (tpl : Template)
    (ps hs : ParameterSpace) (N : Nat) (seed : Int) (st : Nat) :
    run_experiments produce ⟨some tpl, some ps, hs, Int.ofNat N, "factorial", "monte_carlo", seed⟩ st
      = runFactMC produce tpl hs (factorial_params ps) N st := by
  unfold run_experiments
  rw [if_neg (by simp), if_pos ⟨rfl, rfl⟩]
  simp

lemma run_experiments_ff_eq (produce : String → Binding → String) (tpl : Template)
    (ps hs : ParameterSpace) (N : Nat) (seed : Int) (st : Nat) :
    run_experiments produce ⟨some tpl, some ps, hs, Int.ofNat N, "factorial", "factorial", seed⟩ st
      = runFactFact produce tpl (factorial_params hs) (factorial_params ps) st := by
  unfold run_experiments
  rw [if_neg (by simp), if_neg (by simp), if_pos ⟨rfl, rfl⟩]

lemma run_experiments_mcf_eq (produce : String → Binding → String) (tpl : Template)
    (ps hs : ParameterSpace) (N : Nat) (seed : Int) (st : Nat) :
    run_experiments produce ⟨some tpl, some ps, hs, Int.ofNat N, "monte_carlo", "factorial", seed⟩ st
      = runMCFact produce tpl ps (factorial_params hs) N st := by
  unfold run_experiments
  rw [if_neg (by simp), if_neg (by simp), if_neg (by simp), if_pos ⟨rfl, rfl⟩]
  simp

lemma count_eq_one_of_nodup_mem {α : Type} [BEq α] [LawfulBEq α] {l : List α} {a : α}
    (hn : l.Nodup) (ha : a ∈ l) : l.count a = 1 := by
  induction l with
  | nil => cases ha
  | cons x xs ih =>
    rw [List.count_cons]
    rcases List.mem_cons.mp ha with rfl | ha2
    · have hnotin : a ∉ xs := (List.nodup_cons.mp hn).1
      rw [List.count_eq_zero.mpr hnotin]
      simp
    · have hne : x ≠ a := fun he => (List.nodup_cons.mp hn).1 (he ▸ ha2)
      rw [ih (List.nodup_cons.mp hn).2 ha2]
      simp [hne]

lemma countP_pickIndex (L m p : Nat) (hp : p < L) :
    (List.range (m * L)).countP (fun u => pickIndex u L == p) = m := by
  induction m with
  | zero => simp
  | succ m ih =>
    rw [Nat.succ_mul, List.range_add, List.countP_append, ih, List.countP_map]
    have hcong : List.countP ((fun u => pickIndex u L == p) ∘ (fun x => m * L + x)) (List.range L)
        = List.countP (fun x => x == p) (List.range L) := by
      apply List.countP_congr
      intro r hr
      have hrL := List.mem_range.mp hr
      have hmod : (m * L + r) % L = r := by
        rw [Nat.add_comm, Nat.add_mul_mod_self_right, Nat.mod_eq_of_lt hrL]
      simp [Function.comp_def, pickIndex, hmod]
    rw [hcong, ← List.count_eq_countP,
      List.count_eq_one_of_mem (List.nodup_range L) (List.mem_range.mpr hp)]

/-- Claim C9: construction with prompts=None always succeeds, even when both
the template and the parameter space are None: the guarded assertion asserts
a two-element (condition, message) tuple, which is always truthy, so it can
never fail; the missing configuration is only observable later, when a run
actually touches the stored None — a monte-carlo run whose loop executes at
least once fails there before any produce call, while a run with an empty
range (sample count zero) completes with the empty result list and no
error. -/
theorem init_assert_vacuous :
    pyTupleTruthy 2 = true ∧
    (∀ (hyperparameters : ParameterSpace) (N : Int) (prompt_mode hyper_mode : String)
      (template_prompt : Option Template) (prompt_parameters : Option ParameterSpace)
      (seed : Int) (st : Nat),
      (initPromptExperiment hyperparameters N prompt_mode hyper_mode none template_prompt
        prompt_parameters seed st).isOk = true) ∧
    (∀ (produce : String → Binding → String) (hyperparameters : ParameterSpace) (N : Nat)
      (seed : Int) (st st2 : Nat),
      ∃ (e : PromptExperiment) (s : Nat),
        initPromptExperiment hyperparameters (Int.ofNat (N + 1)) "monte_carlo" "monte_carlo"
          none none none seed st = Except.ok (e, s) ∧
        (run_experiments produce e st2).res = Except.error RunError.missingConfig ∧
        (run_experiments produce e st2).calls = []) ∧
    (∀ (produce : String → Binding → String) (hyperparameters : ParameterSpace)
      (seed : Int) (st st2 : Nat),
      ∃ (e : PromptExperiment) (s : Nat),
        initPromptExperiment hyperparameters 0 "monte_carlo" "monte_carlo"
          none none none seed st = Except.ok (e, s) ∧
        run_experiments produce e st2 = ⟨Except.ok [], [], st2⟩) := by
  refine ⟨rfl, fun _ _ _ _ _ _ _ _ => rfl, ?_, ?_⟩
  · intro produce hyperparameters N seed st st2
    refine ⟨⟨none, none, hyperparameters, Int.ofNat (N + 1), "monte_carlo", "monte_carlo", seed⟩,
      seedState seed, rfl, ?_, ?_⟩ <;>
    · unfold run_experiments
      rw [if_pos ⟨rfl, rfl⟩]
      simp
  · intro produce hyperparameters seed st st2
    refine ⟨⟨none, none, hyperparameters, 0, "monte_carlo", "monte_carlo", seed⟩,
      seedState seed, rfl, ?_⟩
    unfold run_experiments
    rw [if_pos ⟨rfl, rfl⟩]
    rfl

/-- Claim C5 counterexample: the constructor accepts a hyperparameter space
containing an empty candidate list — construction succeeds, no InvalidSpace
failure exists in the code. -/
theorem init_accepts_empty_candidates :
    (initPromptExperiment [("temperature", [])] 3 "monte_carlo" "factorial" none
      (some [TplPart.lit "hi"]) (some [("a", ["x"])]) 416 0).isOk = true := rfl

/-- Claim C5 amended: construction performs no space validation and succeeds
for every parameter-space mapping, including ones with empty candidate lists;
an empty candidate list only surfaces later, when random sampling fails on it
and when exhaustive enumeration yields no combinations. -/
theorem init_no_space_validation
    (hyperparameters : ParameterSpace) (N : Int) (prompt_mode hyper_mode : String)
    (prompts : Option (List String)) (template_prompt : Option Template)
    (prompt_parameters : Option ParameterSpace) (seed : Int) (st : Nat) :
    (initPromptExperiment hyperparameters N prompt_mode hyper_mode prompts template_prompt
      prompt_parameters seed st).isOk = true ∧
    (∀ (space : ParameterSpace) (st2 : Nat), (∃ p ∈ space, p.2 = []) →
      random_params st2 space = none ∧ factorial_params space = []) := by
  refine ⟨by cases prompts <;> rfl, ?_⟩
  intro space st2 hempty
  exact ⟨random_params_of_empty space hempty st2, factorial_params_of_empty space hempty⟩

/-- Claim C6 counterexample: the constructor accepts a negative sample count —
construction succeeds, no InvalidSampleSize failure exists in the code. -/
theorem init_accepts_negative_N :
    (initPromptExperiment [("t", ["a"])] (-5) "monte_carlo" "factorial" none
      (some [TplPart.lit "hi"]) (some [("a", ["x"])]) 416 0).isOk = true := rfl

/-- Claim C6 amended: construction never fails on any sample count (there is
no InvalidSampleSize check); for every N ≤ 0 the loop range is empty, so
random sampling yields the empty sequence and a monte-carlo run yields the
empty result list, with no error raised. -/
theorem negative_or_zero_N_empty (N : Int) (hN : N ≤ 0)
    (hyperparameters : ParameterSpace) (prompt_mode hyper_mode : String)
    (prompts : Option (List String)) (template_prompt : Option Template)
    (prompt_parameters : Option ParameterSpace) (seed : Int) (st : Nat)
    (space : ParameterSpace) (produce : String → Binding → String) (tpl : Template)
    (ps hs : ParameterSpace) :
    (initPromptExperiment hyperparameters N prompt_mode hyper_mode prompts template_prompt
      prompt_parameters seed st).isOk = true ∧
    N.toNat = 0 ∧
    randomParamsN space N.toNat st = some ([], st) ∧
    runMCMC produce tpl ps hs N.toNat st = ⟨Except.ok [], [], st⟩ := by
  refine ⟨by cases prompts <;> rfl, Int.toNat_of_nonpos hN, ?_, ?_⟩
  · rw [Int.toNat_of_nonpos hN]; rfl
  · rw [Int.toNat_of_nonpos hN]; rfl

/-- Claim C10: when a mode string is anything other than monte_carlo or
factorial, run_experiments falls through every branch and returns the empty
result list without error and without invoking produce, and generate_prompts
(resp. generate_hyperparameters) returns None for an unrecognized mode. -/
theorem unrecognized_mode_noop (e : PromptExperiment) (st : Nat)
    (produce : String → Binding → String) :
    ((e.prompt_mode ≠ "monte_carlo" ∧ e.prompt_mode ≠ "factorial") ∨
      (e.hyper_mode ≠ "monte_carlo" ∧ e.hyper_mode ≠ "factorial") →
      run_experiments produce e st = ⟨Except.ok [], [], st⟩) ∧
    (e.prompt_mode ≠ "monte_carlo" ∧ e.prompt_mode ≠ "factorial" →
      generate_prompts e st = none) ∧
    (e.hyper_mode ≠ "monte_carlo" ∧ e.hyper_mode ≠ "factorial" →
      generate_hyperparameters e st = none) := by
  refine ⟨?_, ?_, ?_⟩
  · intro h
    unfold run_experiments
    rcases h with ⟨h1, h2⟩ | ⟨h1, h2⟩
    · rw [if_neg (by tauto), if_neg (by tauto), if_neg (by tauto), if_neg (by tauto)]
    · rw [if_neg (by tauto), if_neg (by tauto), if_neg (by tauto), if_neg (by tauto)]
  · intro h
    unfold generate_prompts
    rw [if_neg h.1, if_neg h.2]
  · intro h
    unfold generate_hyperparameters
    rw [if_neg h.1, if_neg h.2]

/-- Claim C3: two instances constructed from the same configuration (same
seed, same spaces, same template, same modes, same N), at least one mode
being monte_carlo, produce bit-identical sampled binding sequences and
identical runs under the same call sequence — even when the global stream
states before the two constructions differ, because seeding discards the
prior state. -/
theorem same_config_reproducible
    (produce : String → Binding → String)
    (hyperparameters : ParameterSpace) (N : Int) (prompt_mode hyper_mode : String)
    (prompts : Option (List String)) (template_prompt : Option Template)
    (prompt_parameters : Option ParameterSpace) (seed : Int)
    (st1 st2 : Nat) (e1 e2 : PromptExperiment) (s1 s2 : Nat)
    (h1 : initPromptExperiment hyperparameters N prompt_mode hyper_mode prompts
      template_prompt prompt_parameters seed st1 = Except.ok (e1, s1))
    (h2 : initPromptExperiment hyperparameters N prompt_mode hyper_mode prompts
      template_prompt prompt_parameters seed st2 = Except.ok (e2, s2))
    (_hmode : prompt_mode = "monte_carlo" ∨ hyper_mode = "monte_carlo") :
    e1 = e2 ∧ s1 = s2 ∧
    run_experiments produce e1 s1 = run_experiments produce e2 s2 ∧
    (∀ (n : Nat) (space : ParameterSpace), randomParamsN space n s1 = randomParamsN space n s2) ∧
    generate_prompts e1 s1 = generate_prompts e2 s2 := by
  cases prompts with
  | none =>
    injection h1 with hpair1
    injection h2 with hpair2
    injection hpair1 with he1 hs1
    injection hpair2 with he2 hs2
    subst he1; subst hs1; subst he2; subst hs2
    exact ⟨rfl, rfl, rfl, fun n space => rfl, rfl⟩
  | some prompts0 =>
    injection h1 with hpair1
    injection h2 with hpair2
    injection hpair1 with he1 hs1
    injection hpair2 with he2 hs2
    subst he1; subst hs1; subst he2; subst hs2
    exact ⟨rfl, rfl, rfl, fun n space => rfl, rfl⟩

/-- Claim C2 counterexample: with a duplicated candidate value the
enumeration repeats the corresponding binding, so a combination is not
produced exactly once: for the space a maps-to [x, x], the binding a=x
occurs twice. -/
theorem factorial_params_duplicate_counterexample :
    (factorial_params [("a", ["x", "x"])]).count [("a", "x")] = 2 := by decide

/-- Claim C2 amended: exhaustive enumeration produces exactly the selections
of one value per parameter, in odometer order over the declared parameter
order (the head parameter distributes outermost, so the last parameter varies
fastest), and its length equals the product of the per-parameter list
lengths; when every candidate list is duplicate-free, every combination is
produced exactly once. -/
theorem factorial_params_enumeration (s : ParameterSpace)
    (name : String) (values : List String)
    (hnodup : ∀ p ∈ s, p.2.Nodup) :
    (factorial_params s).length = cardinality s ∧
    (∀ b : Binding, b ∈ factorial_params s ↔ isSelection b s = true) ∧
    factorial_params ((name, values) :: s) =
      values.flatMap (fun v => (factorial_params s).map (fun b => (name, v) :: b)) ∧
    (∀ b : Binding, isSelection b s = true → (factorial_params s).count b = 1) := by
  refine ⟨factorial_params_length s, fun b => factorial_params_mem_iff s b,
    factorial_params_cons name values s, fun b hb => ?_⟩
  exact count_eq_one_of_nodup_mem (factorial_params_nodup s hnodup)
    ((factorial_params_mem_iff s b).mpr hb)

lemma crossConds_mem (tpl : Template) (pbs hbs : List Binding) (c : Condition)
    (hc : c ∈ crossConds tpl pbs hbs) : c.2.1 ∈ pbs ∧ c.2.2 ∈ hbs := by
  simp only [crossConds, List.mem_flatMap, List.mem_map] at hc
  obtain ⟨pp, hpp, hp, hhp, rfl⟩ := hc
  exact ⟨hpp, hhp⟩

lemma condRecord_keys (produce : String → Binding → String) (c : Condition)
    (ps hs : ParameterSpace)
    (h1 : c.2.1.map Prod.fst = ps.map Prod.fst) (h2 : c.2.2.map Prod.fst = hs.map Prod.fst)
    (hpn : (ps.map Prod.fst).Nodup) (hhn : (hs.map Prod.fst).Nodup) :
    recordKeys (condRecord produce c) = canonKeys ps hs :=
  recordKeys_flatten c.1 c.2.1 c.2.2 (produce c.1 c.2.2) ps hs h1 h2 hpn hhn

/-- Claim C7: random sampling chooses, for each parameter, one candidate from
that parameter's own candidate list, consuming the modelled stream in a fixed
auditable order — outer loop over draws, inner loop over parameters in
declared order, exactly one stream step per parameter per draw — and never
deduplicates: exactly count bindings result even when draws repeat; the index
reduction of a raw draw is uniform: over any stream-value window whose size is
a multiple of the candidate count, every index below the count is selected
equally often. -/
theorem random_params_sampling_model
    (s : ParameterSpace) (hne : ∀ p ∈ s, p.2 ≠ []) (st n : Nat)
    (L m p : Nat) (hp : p < L) :
    (∃ b, random_params st s = some (b, rngNext^[s.length] st) ∧
      b.map Prod.fst = s.map Prod.fst ∧ isSelection b s = true) ∧
    (∃ bs, randomParamsN s n st = some (bs, rngNext^[n * s.length] st) ∧
      bs.length = n ∧
      ∀ b ∈ bs, b.map Prod.fst = s.map Prod.fst ∧ isSelection b s = true) ∧
    (List.range (m * L)).countP (fun u => pickIndex u L == p) = m :=
  ⟨random_params_spec s hne st, randomParamsN_spec s hne n st, countP_pickIndex L m p hp⟩

/-- Claim C1: with P and H the prompt and hyperparameter space cardinalities,
run_experiments yields exactly P·H records under factorial×factorial (the
cross product in nesting order — outer loop over prompt bindings, inner over
hyperparameter bindings, each pair once), P·N under factorial×monte_carlo,
H·N under monte_carlo×factorial and N under monte_carlo×monte_carlo; in every
case the trace of produce invocations is exactly one call per condition in
the composer's nesting order, and every record's output is the value produce
returned for that condition. -/
theorem run_experiments_condition_counts
    (produce : String → Binding → String) (tpl : Template) (ps hs : ParameterSpace)
    (N : Nat) (seed : Int) (st : Nat)
    (hps : ∀ p ∈ ps, p.2 ≠ []) (hhs : ∀ p ∈ hs, p.2 ≠ [])
    (hslots : ∀ m ∈ tplSlots tpl, m ∈ ps.map Prod.fst) :
    (run_experiments produce ⟨some tpl, some ps, hs, Int.ofNat N, "factorial", "factorial", seed⟩ st =
        ⟨Except.ok ((crossConds tpl (factorial_params ps) (factorial_params hs)).map (condRecord produce)),
          (crossConds tpl (factorial_params ps) (factorial_params hs)).map condCall, st⟩ ∧
      (crossConds tpl (factorial_params ps) (factorial_params hs)).length
        = cardinality ps * cardinality hs) ∧
    (∃ conds : List Condition,
      run_experiments produce ⟨some tpl, some ps, hs, Int.ofNat N, "factorial", "monte_carlo", seed⟩ st =
        ⟨Except.ok (conds.map (condRecord produce)), conds.map condCall,
          rngNext^[(factorial_params ps).length * (N * hs.length)] st⟩ ∧
      conds.length = cardinality ps * N) ∧
    (∃ conds : List Condition,
      run_experiments produce ⟨some tpl, some ps, hs, Int.ofNat N, "monte_carlo", "factorial", seed⟩ st =
        ⟨Except.ok (conds.map (condRecord produce)), conds.map condCall,
          rngNext^[(factorial_params hs).length * (N * ps.length)] st⟩ ∧
      conds.length = cardinality hs * N) ∧
    (∃ conds : List Condition,
      run_experiments produce ⟨some tpl, some ps, hs, Int.ofNat N, "monte_carlo", "monte_carlo", seed⟩ st =
        ⟨Except.ok (conds.map (condRecord produce)), conds.map condCall,
          rngNext^[N * (ps.length + hs.length)] st⟩ ∧
      conds.length = N) := by
  have hrenderAll : ∀ pp ∈ factorial_params ps, renderTpl tpl pp = Except.ok (renderTotal tpl pp) :=
    fun pp hpp => renderTpl_ok tpl pp
      (fun m hm => (factorial_params_keys ps pp hpp) ▸ hslots m hm)
  refine ⟨⟨?_, ?_⟩, ?_, ?_, ?_⟩
  · rw [run_experiments_ff_eq]
    exact runFactFact_spec produce tpl (factorial_params hs) (factorial_params ps) st hrenderAll
  · rw [crossConds_length, factorial_params_length, factorial_params_length]
  · obtain ⟨conds, h1, h2, _⟩ := runFactMC_spec produce tpl hs hhs (factorial_params ps) hrenderAll N st
    exact ⟨conds, by rw [run_experiments_fmc_eq]; exact h1, by rw [h2, factorial_params_length]⟩
  · obtain ⟨conds, h1, h2, _⟩ := runMCFact_spec produce tpl ps hps hslots (factorial_params hs) N st
    exact ⟨conds, by rw [run_experiments_mcf_eq]; exact h1, by rw [h2, factorial_params_length]⟩
  · obtain ⟨conds, h1, h2, _⟩ := runMCMC_spec produce tpl ps hs hps hhs hslots N st
    exact ⟨conds, by rw [run_experiments_mcmc_eq]; exact h1, h2⟩

/-- Claim C8: flatten_results is a pure function whose record has exactly the
keys prompt and output plus param_<name> for each bound prompt parameter and
hyper_<name> for each bound hyperparameter, with prompt and output mapped to
the given prompt and output values; records produced under any of the four
composition policies over the same declared spaces share this same key set,
and flattening the same inputs twice yields identical records. -/
theorem flatten_results_schema
    (prompt : String) (pp hp : Binding) (response : String)
    (ps hs : ParameterSpace)
    (hppk : pp.map Prod.fst = ps.map Prod.fst) (hhpk : hp.map Prod.fst = hs.map Prod.fst)
    (hpn : (ps.map Prod.fst).Nodup) (hhn : (hs.map Prod.fst).Nodup)
    (hps : ∀ q ∈ ps, q.2 ≠ []) (hhs : ∀ q ∈ hs, q.2 ≠ [])
    (tpl : Template) (hslots : ∀ m ∈ tplSlots tpl, m ∈ ps.map Prod.fst)
    (produce : String → Binding → String) (N : Nat) (seed : Int) (st : Nat) :
    recordKeys (flatten_results prompt pp hp response) = canonKeys ps hs ∧
    lookupBinding (flatten_results prompt pp hp response) "prompt" = some prompt ∧
    lookupBinding (flatten_results prompt pp hp response) "output" = some response ∧
    flatten_results prompt pp hp response = flatten_results prompt pp hp response ∧
    (∀ pm hm : String, (pm = "monte_carlo" ∨ pm = "factorial") →
      (hm = "monte_carlo" ∨ hm = "factorial") →
      ∀ recs, (run_experiments produce ⟨some tpl, some ps, hs, Int.ofNat N, pm, hm, seed⟩ st).res
          = Except.ok recs →
      ∀ r ∈ recs, recordKeys r = canonKeys ps hs) := by
  have hflat := flatten_results_eq prompt pp hp response (hppk ▸ hpn) (hhpk ▸ hhn)
  have hrenderAll : ∀ pb ∈ factorial_params ps, renderTpl tpl pb = Except.ok (renderTotal tpl pb) :=
    fun pb hpb => renderTpl_ok tpl pb
      (fun m hm => (factorial_params_keys ps pb hpb) ▸ hslots m hm)
  refine ⟨recordKeys_flatten prompt pp hp response ps hs hppk hhpk hpn hhn,
    by rw [hflat]; simp [lookupBinding], by rw [hflat]; simp [lookupBinding], rfl, ?_⟩
  intro pm hm hpm hhm recs hres r hr
  rcases hpm with rfl | rfl <;> rcases hhm with rfl | rfl
  · obtain ⟨conds, h1, _, hprops⟩ := runMCMC_spec produce tpl ps hs hps hhs hslots N st
    rw [run_experiments_mcmc_eq, h1] at hres
    injection hres with hrecs
    subst hrecs
    obtain ⟨c, hcmem, rfl⟩ := List.mem_map.mp hr
    obtain ⟨k1, k2, _⟩ := hprops c hcmem
    exact condRecord_keys produce c ps hs k1 k2 hpn hhn
  · obtain ⟨conds, h1, _, hprops⟩ := runMCFact_spec produce tpl ps hps hslots (factorial_params hs) N st
    rw [run_experiments_mcf_eq, h1] at hres
    injection hres with hrecs
    subst hrecs
    obtain ⟨c, hcmem, rfl⟩ := List.mem_map.mp hr
    obtain ⟨k1, k2, _⟩ := hprops c hcmem
    exact condRecord_keys produce c ps hs k1 (factorial_params_keys hs _ k2) hpn hhn
  · obtain ⟨conds, h1, _, hprops⟩ := runFactMC_spec produce tpl hs hhs (factorial_params ps) hrenderAll N st
    rw [run_experiments_fmc_eq, h1] at hres
    injection hres with hrecs
    subst hrecs
    obtain ⟨c, hcmem, rfl⟩ := List.mem_map.mp hr
    obtain ⟨k1, k2, _⟩ := hprops c hcmem
    exact condRecord_keys produce c ps hs (factorial_params_keys ps _ k1) k2 hpn hhn
  · rw [run_experiments_ff_eq,
      runFactFact_spec produce tpl (factorial_params hs) (factorial_params ps) st hrenderAll] at hres
    injection hres with hrecs
    subst hrecs
    obtain ⟨c, hcmem, rfl⟩ := List.mem_map.mp hr
    obtain ⟨hc1, hc2⟩ := crossConds_mem tpl _ _ c hcmem
    exact condRecord_keys produce c ps hs (factorial_params_keys ps _ hc1)
      (factorial_params_keys hs _ hc2) hpn hhn

/-- Claim C4: when the template references a slot name that has no bound
value in the prompt bindings (a name not declared in the prompt space), a run
under any of the four recognized mode combinations fails with a rendering
error and its produce trace is empty — the failure surfaces before any
produce call is made and the condition is not silently skipped. -/
theorem unbound_slot_fails_before_produce
    (produce : String → Binding → String) (tpl : Template) (ps hs : ParameterSpace)
    (N : Nat) (seed : Int) (st : Nat) (slotName : String)
    (hslot : slotName ∈ tplSlots tpl) (hmissing : slotName ∉ ps.map Prod.fst)
    (hps : ∀ p ∈ ps, p.2 ≠ []) (hhs : ∀ p ∈ hs, p.2 ≠ [])
    (hN : 0 < N) :
    ∀ pm hm : String, (pm = "monte_carlo" ∨ pm = "factorial") →
      (hm = "monte_carlo" ∨ hm = "factorial") →
      (∃ sl, (run_experiments produce ⟨some tpl, some ps, hs, Int.ofNat N, pm, hm, seed⟩ st).res
          = Except.error (RunError.renderMissing sl)) ∧
      (run_experiments produce ⟨some tpl, some ps, hs, Int.ofNat N, pm, hm, seed⟩ st).calls = [] := by
  obtain ⟨n, rfl⟩ : ∃ n, N = n + 1 := ⟨N - 1, (Nat.succ_pred_eq_of_pos hN).symm⟩
  obtain ⟨pp0, prest, hfp⟩ : ∃ pp0 prest, factorial_params ps = pp0 :: prest := by
    cases h : factorial_params ps with
    | nil => exact absurd h (factorial_params_ne_nil ps hps)
    | cons a b => exact ⟨a, b, rfl⟩
  obtain ⟨hp0, hrest, hfh⟩ : ∃ hp0 hrest, factorial_params hs = hp0 :: hrest := by
    cases h : factorial_params hs with
    | nil => exact absurd h (factorial_params_ne_nil hs hhs)
    | cons a b => exact ⟨a, b, rfl⟩
  have hpp0mem : pp0 ∈ factorial_params ps := by rw [hfp]; exact List.mem_cons_self pp0 prest
  obtain ⟨sl0, hsl0⟩ := renderTpl_err tpl pp0
    ⟨slotName, hslot, by rw [factorial_params_keys ps pp0 hpp0mem]; exact hmissing⟩
  intro pm hm hpm hhm
  rcases hpm with rfl | rfl <;> rcases hhm with rfl | rfl
  · rw [run_experiments_mcmc_eq]
    obtain ⟨pp, hpp, hppk, _⟩ := random_params_spec ps hps st
    obtain ⟨sl, hsl⟩ := renderTpl_err tpl pp ⟨slotName, hslot, by rw [hppk]; exact hmissing⟩
    exact ⟨⟨sl, by simp [runMCMC, hpp, hsl]⟩, by simp [runMCMC, hpp, hsl]⟩
  · rw [run_experiments_mcf_eq, hfh]
    obtain ⟨pp, hpp, hppk, _⟩ := random_params_spec ps hps st
    obtain ⟨sl, hsl⟩ := renderTpl_err tpl pp ⟨slotName, hslot, by rw [hppk]; exact hmissing⟩
    exact ⟨⟨sl, by simp [runMCFact, runMCFactInner, hpp, hsl]⟩,
      by simp [runMCFact, runMCFactInner, hpp, hsl]⟩
  · rw [run_experiments_fmc_eq, hfp]
    exact ⟨⟨sl0, by simp [runFactMC, hsl0]⟩, by simp [runFactMC, hsl0]⟩
  · rw [run_experiments_ff_eq, hfp]
    exact ⟨⟨sl0, by simp [runFactFact, hsl0]⟩, by simp [runFactFact, hsl0]⟩

/-- Witness for the amended enumeration theorem at the spec's two-tone
example space. -/
theorem factorial_params_enumeration_witness :
    (factorial_params [("tone", ["formal", "casual"])]).length = cardinality [("tone", ["formal", "casual"])] ∧
    (∀ b : Binding, b ∈ factorial_params [("tone", ["formal", "casual"])] ↔
      isSelection b [("tone", ["formal", "casual"])] = true) ∧
    factorial_params (("temp", ["02", "08"]) :: [("tone", ["formal", "casual"])]) =
      ["02", "08"].flatMap (fun v => (factorial_params [("tone", ["formal", "casual"])]).map
        (fun b => ("temp", v) :: b)) ∧
    (∀ b : Binding, isSelection b [("tone", ["formal", "casual"])] = true →
      (factorial_params [("tone", ["formal", "casual"])]).count b = 1) :=
  factorial_params_enumeration [("tone", ["formal", "casual"])] "temp" ["02", "08"] (by decide)

/-- Witness for the reproducibility theorem: the same configuration seeded
identically from two different prior stream states. -/
theorem same_config_reproducible_witness :
    (⟨some [TplPart.slot "a"], some [("a", ["x", "y"])], [("t", ["1", "2"])], 3,
        "monte_carlo", "monte_carlo", 416⟩ : PromptExperiment) =
      ⟨some [TplPart.slot "a"], some [("a", ["x", "y"])], [("t", ["1", "2"])], 3,
        "monte_carlo", "monte_carlo", 416⟩ ∧
    seedState 416 = seedState 416 ∧
    run_experiments (fun p _ => p)
        ⟨some [TplPart.slot "a"], some [("a", ["x", "y"])], [("t", ["1", "2"])], 3,
          "monte_carlo", "monte_carlo", 416⟩ (seedState 416) =
      run_experiments (fun p _ => p)
        ⟨some [TplPart.slot "a"], some [("a", ["x", "y"])], [("t", ["1", "2"])], 3,
          "monte_carlo", "monte_carlo", 416⟩ (seedState 416) ∧
    (∀ (n : Nat) (space : ParameterSpace),
      randomParamsN space n (seedState 416) = randomParamsN space n (seedState 416)) ∧
    generate_prompts
        ⟨some [TplPart.slot "a"], some [("a", ["x", "y"])], [("t", ["1", "2"])], 3,
          "monte_carlo", "monte_carlo", 416⟩ (seedState 416) =
      generate_prompts
        ⟨some [TplPart.slot "a"], some [("a", ["x", "y"])], [("t", ["1", "2"])], 3,
          "monte_carlo", "monte_carlo", 416⟩ (seedState 416) :=
  same_config_reproducible (fun p _ => p) [("t", ["1", "2"])] 3 "monte_carlo" "monte_carlo"
    none (some [TplPart.slot "a"]) (some [("a", ["x", "y"])]) 416 0 99 _ _ _ _ rfl rfl (Or.inl rfl)

/-- Witness for the unbound-slot theorem: a template referencing degrees over
a space declaring only tone, run as monte_carlo over factorial. -/
theorem unbound_slot_fails_before_produce_witness :
    (∃ sl, (run_experiments (fun _ _ => "out")
        ⟨some [TplPart.slot "degrees"], some [("tone", ["formal"])], [("t", ["1"])],
          Int.ofNat 1, "monte_carlo", "factorial", 416⟩ 0).res
      = Except.error (RunError.renderMissing sl)) ∧
    (run_experiments (fun _ _ => "out")
        ⟨some [TplPart.slot "degrees"], some [("tone", ["formal"])], [("t", ["1"])],
          Int.ofNat 1, "monte_carlo", "factorial", 416⟩ 0).calls = [] :=
  unbound_slot_fails_before_produce (fun _ _ => "out") [TplPart.slot "degrees"]
    [("tone", ["formal"])] [("t", ["1"])] 1 416 0 "degrees" (by decide) (by decide)
    (by decide) (by decide) (by decide) "monte_carlo" "factorial" (Or.inl rfl) (Or.inr rfl)

/-- Witness for the amended no-space-validation theorem, with an empty
candidate list exercised at sampling and enumeration. -/
theorem init_no_space_validation_witness :
    (initPromptExperiment [("e", [])] 3 "monte_carlo" "factorial" none
      (some [TplPart.lit "q"]) (some [("a", ["x"])]) 416 0).isOk = true ∧
    random_params 7 [("e", [])] = none ∧ factorial_params [("e", [])] = [] :=
  ⟨(init_no_space_validation [("e", [])] 3 "monte_carlo" "factorial" none
      (some [TplPart.lit "q"]) (some [("a", ["x"])]) 416 0).1,
    (init_no_space_validation [("e", [])] 3 "monte_carlo" "factorial" none
      (some [TplPart.lit "q"]) (some [("a", ["x"])]) 416 0).2 [("e", [])] 7
      ⟨("e", []), by decide, rfl⟩⟩

/-- Witness for the amended negative-count theorem at N = -3. -/
theorem negative_or_zero_N_empty_witness :
    (initPromptExperiment [("t", ["1"])] (-3) "monte_carlo" "monte_carlo" none
      (some [TplPart.lit "q"]) (some [("a", ["x"])]) 416 5).isOk = true ∧
    Int.toNat (-3) = 0 ∧
    randomParamsN [("a", ["x"])] (Int.toNat (-3)) 5 = some ([], 5) ∧
    runMCMC (fun _ _ => "out") [TplPart.lit "q"] [("a", ["x"])] [("t", ["1"])]
      (Int.toNat (-3)) 5 = ⟨Except.ok [], [], 5⟩ :=
  negative_or_zero_N_empty (-3) (by decide) [("t", ["1"])] "monte_carlo" "monte_carlo"
    none (some [TplPart.lit "q"]) (some [("a", ["x"])]) 416 5 [("a", ["x"])]
    (fun _ _ => "out") [TplPart.lit "q"] [("a", ["x"])] [("t", ["1"])]

/-- Witness for the sampling-model theorem on a two-parameter space with a
window of three periods of a two-candidate count. -/
theorem random_params_sampling_model_witness :
    (∃ b, random_params 5 [("a", ["x", "y"]), ("b", ["u", "v"])] =
        some (b, rngNext^[([("a", ["x", "y"]), ("b", ["u", "v"])] : ParameterSpace).length] 5) ∧
      b.map Prod.fst = ([("a", ["x", "y"]), ("b", ["u", "v"])] : ParameterSpace).map Prod.fst ∧
      isSelection b [("a", ["x", "y"]), ("b", ["u", "v"])] = true) ∧
    (∃ bs, randomParamsN [("a", ["x", "y"]), ("b", ["u", "v"])] 2 5 =
        some (bs, rngNext^[2 * ([("a", ["x", "y"]), ("b", ["u", "v"])] : ParameterSpace).length] 5) ∧
      bs.length = 2 ∧
      ∀ b ∈ bs, b.map Prod.fst = ([("a", ["x", "y"]), ("b", ["u", "v"])] : ParameterSpace).map Prod.fst ∧
        isSelection b [("a", ["x", "y"]), ("b", ["u", "v"])] = true) ∧
    (List.range (3 * 2)).countP (fun u => pickIndex u 2 == 1) = 3 :=
  random_params_sampling_model [("a", ["x", "y"]), ("b", ["u", "v"])] (by decide) 5 2 2 3 1
    (by decide)

/-- Witness for the condition-count theorem at a one-point design. -/
theorem run_experiments_condition_counts_witness :
    (run_experiments (fun _ _ => "out")
        ⟨some [TplPart.slot "a"], some [("a", ["x"])], [("t", ["1"])], Int.ofNat 1,
          "factorial", "factorial", 416⟩ 0 =
        ⟨Except.ok ((crossConds [TplPart.slot "a"] (factorial_params [("a", ["x"])])
            (factorial_params [("t", ["1"])])).map (condRecord (fun _ _ => "out"))),
          (crossConds [TplPart.slot "a"] (factorial_params [("a", ["x"])])
            (factorial_params [("t", ["1"])])).map condCall, 0⟩ ∧
      (crossConds [TplPart.slot "a"] (factorial_params [("a", ["x"])])
          (factorial_params [("t", ["1"])])).length
        = cardinality [("a", ["x"])] * cardinality [("t", ["1"])]) ∧
    (∃ conds : List Condition,
      run_experiments (fun _ _ => "out")
          ⟨some [TplPart.slot "a"], some [("a", ["x"])], [("t", ["1"])], Int.ofNat 1,
            "factorial", "monte_carlo", 416⟩ 0 =
        ⟨Except.ok (conds.map (condRecord (fun _ _ => "out"))), conds.map condCall,
          rngNext^[(factorial_params [("a", ["x"])]).length *
            (1 * ([("t", ["1"])] : ParameterSpace).length)] 0⟩ ∧
      conds.length = cardinality [("a", ["x"])] * 1) ∧
    (∃ conds : List Condition,
      run_experiments (fun _ _ => "out")
          ⟨some [TplPart.slot "a"], some [("a", ["x"])], [("t", ["1"])], Int.ofNat 1,
            "monte_carlo", "factorial", 416⟩ 0 =
        ⟨Except.ok (conds.map (condRecord (fun _ _ => "out"))), conds.map condCall,
          rngNext^[(factorial_params [("t", ["1"])]).length *
            (1 * ([("a", ["x"])] : ParameterSpace).length)] 0⟩ ∧
      conds.length = cardinality [("t", ["1"])] * 1) ∧
    (∃ conds : List Condition,
      run_experiments (fun _ _ => "out")
          ⟨some [TplPart.slot "a"], some [("a", ["x"])], [("t", ["1"])], Int.ofNat 1,
            "monte_carlo", "monte_carlo", 416⟩ 0 =
        ⟨Except.ok (conds.map (condRecord (fun _ _ => "out"))), conds.map condCall,
          rngNext^[1 * (([("a", ["x"])] : ParameterSpace).length +
            ([("t", ["1"])] : ParameterSpace).length)] 0⟩ ∧
      conds.length = 1) :=
  run_experiments_condition_counts (fun _ _ => "out") [TplPart.slot "a"] [("a", ["x"])]
    [("t", ["1"])] 1 416 0 (by decide) (by decide) (by decide)

/-- Witness for the flattening-schema theorem at a one-parameter binding per
space. -/
theorem flatten_results_schema_witness :
    recordKeys (flatten_results "P" [("a", "x")] [("t", "1")] "R") =
      canonKeys [("a", ["x"])] [("t", ["1"])] ∧
    lookupBinding (flatten_results "P" [("a", "x")] [("t", "1")] "R") "prompt" = some "P" ∧
    lookupBinding (flatten_results "P" [("a", "x")] [("t", "1")] "R") "output" = some "R" ∧
    flatten_results "P" [("a", "x")] [("t", "1")] "R" =
      flatten_results "P" [("a", "x")] [("t", "1")] "R" ∧
    (∀ pm hm : String, (pm = "monte_carlo" ∨ pm = "factorial") →
      (hm = "monte_carlo" ∨ hm = "factorial") →
      ∀ recs, (run_experiments (fun _ _ => "out")
          ⟨some [TplPart.slot "a"], some [("a", ["x"])], [("t", ["1"])], Int.ofNat 1,
            pm, hm, 416⟩ 0).res = Except.ok recs →
      ∀ r ∈ recs, recordKeys r = canonKeys [("a", ["x"])] [("t", ["1"])]) :=
  flatten_results_schema "P" [("a", "x")] [("t", "1")] "R" [("a", ["x"])] [("t", ["1"])]
    (by decide) (by decide) (by decide) (by decide) (by decide) (by decide)
    [TplPart.slot "a"] (by decide) (fun _ _ => "out") 1 416 0

/-- Witness for the unrecognized-mode theorem with unknown strings for both
modes. -/
theorem unrecognized_mode_noop_witness :
    run_experiments (fun _ _ => "out")
        ⟨some [TplPart.lit "q"], some [("a", ["x"])], [("t", ["1"])], 1, "bogus", "weird", 416⟩ 7 =
      ⟨Except.ok [], [], 7⟩ ∧
    generate_prompts
        ⟨some [TplPart.lit "q"], some [("a", ["x"])], [("t", ["1"])], 1, "bogus", "weird", 416⟩ 7 = none ∧
    generate_hyperparameters
        ⟨some [TplPart.lit "q"], some [("a", ["x"])], [("t", ["1"])], 1, "bogus", "weird", 416⟩ 7 = none :=
  ⟨(unrecognized_mode_noop
      ⟨some [TplPart.lit "q"], some [("a", ["x"])], [("t", ["1"])], 1, "bogus", "weird", 416⟩ 7
      (fun _ _ => "out")).1 (Or.inl ⟨by decide, by decide⟩),
    (unrecognized_mode_noop
      ⟨some [TplPart.lit "q"], some [("a", ["x"])], [("t", ["1"])], 1, "bogus", "weird", 416⟩ 7
      (fun _ _ => "out")).2.1 ⟨by decide, by decide⟩,
    (unrecognized_mode_noop
      ⟨some [TplPart.lit "q"], some [("a", ["x"])], [("t", ["1"])], 1, "bogus", "weird", 416⟩ 7
      (fun _ _ => "out")).2.2 ⟨by decide, by decide⟩⟩

end OOD
